import Mathlib

/-!
Verification of the olive canopy segmentation pipeline
(`otsu_segmentation.py`) against its natural-language specification.

The embedding below translates the core pipeline of `segment_olivos` and
`_rasterize_aoi` into Lean:

* raster/mask images become `Grid := List (List Nat)` (row-major, 8-bit
  values as `Nat`);
* geographic coordinates and pixel sizes become exact rationals `ℚ`
  (the Python code uses IEEE doubles; the claims under study are about
  the algebraic form of the transforms, which the rational model captures);
* Python exceptions become `Except String`;
* the external OpenCV and GDAL calls (`cv2.threshold` with Otsu,
  `cv2.findContours`, `gdal.RasterizeLayer`) are not part of this
  repository; where a claim depends on their behaviour they are either
  taken as parameters of the embedded function or modelled from the
  specification, as flagged in the corresponding doc comments.
-/

/-- Row-major 8-bit image, as read by `cv2.imread(..., IMREAD_GRAYSCALE)`
or produced by `ReadAsArray()`: a list of rows, each a list of values. -/
abbrev Grid := List (List Nat)

/-- Pixel accessor `g[i][j]` with default 0 outside bounds (row `i`,
column `j`). -/
def px (g : Grid) (i j : Nat) : Nat := (g.getD i []).getD j 0

/-- The raster extent, as returned by `layer_ras.extent()`:
`xMinimum(), xMaximum(), yMinimum(), yMaximum()`. -/
structure Extent where
  xmin : ℚ
  xmax : ℚ
  ymin : ℚ
  ymax : ℚ
deriving DecidableEq

/-- The geotransform tuple `gt` built in `_rasterize_aoi` (lines 93-100):
`(x_min, (x_max - x_min)/w, 0, y_max, 0, -(y_max - y_min)/h)`.
Python raises `ZeroDivisionError` when `w` or `h` is zero; every other
input (including negative sizes and degenerate extents) is accepted and
the tuple is computed without any validation. -/
def computeGt (e : Extent) (w h : ℤ) : Except String (ℚ × ℚ × ℚ × ℚ × ℚ × ℚ) :=
  if w = 0 ∨ h = 0 then .error "ZeroDivisionError"
  else .ok (e.xmin, (e.xmax - e.xmin) / (w : ℚ), 0, e.ymax, 0,
            -((e.ymax - e.ymin) / (h : ℚ)))

/-- `px_x = gt[1]` in `_rasterize_aoi` (line 119). -/
def px_x (e : Extent) (w : ℤ) : ℚ := (e.xmax - e.xmin) / (w : ℚ)

/-- `px_y = abs(gt[5])` in `_rasterize_aoi` (line 120). -/
def px_y (e : Extent) (h : ℤ) : ℚ := |(-((e.ymax - e.ymin) / (h : ℚ)))|

/-- The externally-observable part of `_rasterize_aoi` (lines 108-124),
with the external OGR/GDAL interactions as parameters:
`srcOpenOk` is whether `ogr.Open(aoi_file)` returned a dataset,
`burnErr` is the return code of `gdal.RasterizeLayer`, and `band` is the
content of the burned band as read back by `ReadAsArray()`.  The code
raises `RuntimeError` on a failed open or a nonzero burn code, and
otherwise binarizes the band with `(mask_arr > 0).astype(np.uint8)`
(line 123) and returns it. -/
def rasterize_aoi (srcOpenOk : Bool) (burnErr : ℤ) (band : Grid) :
    Except String Grid :=
  if srcOpenOk = false then .error "Failed to open AOI layer with OGR"
  else if burnErr ≠ 0 then .error "GDAL RasterizeLayer error"
  else .ok (band.map (fun row => row.map (fun v => if 0 < v then 1 else 0)))

/-- `bin_img` of `segment_olivos` (lines 141-142): zeros, then
`bin_img[mask_arr == 1] = otsu_full[mask_arr == 1]`. -/
def bin_img (mask otsu : Grid) : Grid :=
  List.zipWith (List.zipWith (fun m o => if m = 1 then o else 0)) mask otsu

/-- `mask_trees` of `segment_olivos` (lines 144-145): zeros, then
`mask_trees[np.logical_and(mask_arr == 1, bin_img == 0)] = 255`. -/
def mask_trees (mask otsu : Grid) : Grid :=
  List.zipWith (List.zipWith (fun m b => if m = 1 ∧ b = 0 then 255 else 0))
    mask (bin_img mask otsu)

/-- A pixel-space contour as returned by `cv2.findContours`: a list of
`(col, row)` vertices (the code reads `pt[0]` as `px` and `pt[1]` as
`py`). -/
abbrev Contour := List (Nat × Nat)

/-- The vertex mapping of the polygon-building loop (lines 162-165):
`x_geo = extent.xMinimum() + (px + 0.5) * px_x`,
`y_geo = extent.yMaximum() - (py + 0.5) * px_y`. -/
def forward (e : Extent) (pxx pxy : ℚ) (p : Nat × Nat) : ℚ × ℚ :=
  (e.xmin + ((p.1 : ℚ) + 1 / 2) * pxx, e.ymax - ((p.2 : ℚ) + 1 / 2) * pxy)

/-- Modelled from the spec: `cv2.contourArea` is external OpenCV code;
spec §3 describes the pixel-area as the absolute value of the
shoelace-computed contour area, truncated to an integer (`int(...)` on
line 159).  Signed twice-area of the closed pixel ring. -/
def shoelaceSum (c : Contour) : ℤ :=
  (c.zip (c.rotate 1)).foldl
    (fun acc pq => acc + ((pq.1.1 : ℤ) * (pq.2.2 : ℤ) - (pq.2.1 : ℤ) * (pq.1.2 : ℤ))) 0

/-- Modelled from the spec: pixel-area = `int(cv2.contourArea(cnt))`,
i.e. the truncated absolute shoelace area. -/
def contourAreaPx (c : Contour) : Nat := (shoelaceSum c).natAbs / 2

/-- One output feature: attribute `ID`, attribute `Area_px`, and the
geographic ring (lines 166-169). -/
structure Feature where
  id : Nat
  area_px : Nat
  pts : List (ℚ × ℚ)
deriving DecidableEq

/-- The polygon-building loop of `segment_olivos` (lines 156-169):
`for i, cnt in enumerate(contornos, start=1): if cnt.shape[0] < 3:
continue` then emit the feature with attributes `[i, area_px]` and the
forward-transformed ring. -/
def buildFeatures (e : Extent) (pxx pxy : ℚ) : Nat → List Contour → List Feature
  | _, [] => []
  | i, c :: rest =>
    if c.length < 3 then buildFeatures e pxx pxy (i + 1) rest
    else { id := i, area_px := contourAreaPx c,
           pts := c.map (forward e pxx pxy) } :: buildFeatures e pxx pxy (i + 1) rest

/-- 8-adjacency of two pixels given as `(row, col)` pairs. -/
def adj8 (p q : Nat × Nat) : Bool :=
  (p.1 - q.1 ≤ 1 && q.1 - p.1 ≤ 1 && p.2 - q.2 ≤ 1 && q.2 - p.2 ≤ 1) &&
    !(p.1 == q.1 && p.2 == q.2)

/-- Foreground (nonzero) pixels of one row, scanned left to right;
`i` is the row index, `j` the column of the first element. -/
def rowFgAux (i : Nat) : Nat → List Nat → List (Nat × Nat)
  | _, [] => []
  | j, v :: r =>
    if v ≠ 0 then (i, j) :: rowFgAux i (j + 1) r else rowFgAux i (j + 1) r

/-- Foreground pixels of a grid in row-major scan order, starting at
row index `i`. -/
def gridFgAux : Nat → Grid → List (Nat × Nat)
  | _, [] => []
  | i, row :: rest => rowFgAux i 0 row ++ gridFgAux (i + 1) rest

/-- All foreground pixels of a grid, `(row, col)`, row-major order. -/
def gridFg (g : Grid) : List (Nat × Nat) := gridFgAux 0 g

/-- Insert a pixel into a running component decomposition: all existing
components 8-adjacent to the pixel are merged with it into one. -/
def addPixel (comps : List (List (Nat × Nat))) (p : Nat × Nat) :
    List (List (Nat × Nat)) :=
  let pr := comps.partition (fun c => c.any (fun q => adj8 p q))
  (p :: pr.1.flatten) :: pr.2

/-- The 8-connected foreground components of a grid. -/
def components (g : Grid) : List (List (Nat × Nat)) :=
  (gridFg g).foldl addPixel []

/-- A component pixel `(row, col)` lying on the outer boundary: on the
image border or with a background 4-neighbour (out-of-range reads of
`px` return 0, covering the bottom and right borders). -/
def isBoundaryPix (g : Grid) (p : Nat × Nat) : Bool :=
  p.1 == 0 || p.2 == 0 || px g (p.1 - 1) p.2 == 0 || px g (p.1 + 1) p.2 == 0 ||
    px g p.1 (p.2 - 1) == 0 || px g p.1 (p.2 + 1) == 0

/-- Modelled from the spec: `cv2.findContours(mask_trees, RETR_EXTERNAL,
CHAIN_APPROX_SIMPLE)` is external OpenCV code.  Per spec §4.5 the
Contour Tracer returns, for each 8-connected foreground component, the
ordered vertices of its outermost boundary as `(col, row)` pairs (the
chain-approximation compression of straight runs is not modelled; no
claim under study depends on it). -/
def findContoursModel (g : Grid) : List Contour :=
  (components g).map
    (fun c => (c.filter (fun p => isBoundaryPix g p)).map (fun p => (p.2, p.1)))

/-- The full pixel pipeline of `segment_olivos` (lines 140-169) after
the raster and mask are loaded: composite the AOI mask with the
thresholded image, trace contours, and build the output features.
`otsu` stands for `otsu_full`, the external `cv2.threshold(...,
THRESH_BINARY + THRESH_OTSU)` output on the full raster. -/
def segment_olivos (e : Extent) (w h : ℤ) (mask otsu : Grid) : List Feature :=
  buildFeatures e (px_x e w) (px_y e h) 1 (findContoursModel (mask_trees mask otsu))

/-- Modelled from the spec: the Threshold Engine is the external OpenCV
call `cv2.threshold(img_gray, 0, 255, THRESH_BINARY + THRESH_OTSU)`
(line 140).  Spec §4.3: number of pixels of the flattened intensity
image with value at most `t` (class 0). -/
def n0 (img : List Nat) (t : Nat) : Nat := (img.filter (fun v => v ≤ t)).length

/-- Modelled from the spec: number of pixels with value above `t`
(class 1). -/
def n1 (img : List Nat) (t : Nat) : Nat := (img.filter (fun v => t < v)).length

/-- Modelled from the spec: sum of the intensities of class 0. -/
def s0 (img : List Nat) (t : Nat) : ℚ :=
  ((img.filter (fun v => v ≤ t)).map (fun v => (v : ℚ))).sum

/-- Modelled from the spec: sum of the intensities of class 1. -/
def s1 (img : List Nat) (t : Nat) : ℚ :=
  ((img.filter (fun v => t < v)).map (fun v => (v : ℚ))).sum

/-- Modelled from the spec: the between-class variance
`w0 * w1 * (mu0 - mu1)^2` at candidate threshold `t`, where `w0, w1`
are the class probability masses and `mu0, mu1` the class means
(an empty class contributes mass 0, making the product 0: in `ℚ`,
division by 0 yields 0). -/
def betweenVar (img : List Nat) (t : Nat) : ℚ :=
  ((n0 img t : ℚ) / (img.length : ℚ)) * ((n1 img t : ℚ) / (img.length : ℚ)) *
    (s0 img t / (n0 img t : ℚ) - s1 img t / (n1 img t : ℚ)) ^ 2

/-- One step of the ascending argmax scan: keep the incumbent unless the
new candidate is strictly better (so the first maximum encountered
wins). -/
def scanStep (f : Nat → ℚ) (acc t : Nat) : Nat := if f acc < f t then t else acc

/-- Modelled from the spec: the Otsu threshold `t*`, the first maximizer
of the between-class variance over the ascending candidate scan
`t = 1, 2, ..., 254`. -/
def otsuThreshold (img : List Nat) : Nat :=
  (List.range' 2 253).foldl (scanStep (betweenVar img)) 1

/-- Modelled from the spec: the Threshold Engine's output binary image,
`255` where the intensity is strictly above `t*`, else `0`
(`THRESH_BINARY` polarity). -/
def applyOtsu (img : List Nat) : List Nat :=
  img.map (fun v => if otsuThreshold img < v then 255 else 0)

lemma zip_row_px (mr orow : List Nat) (j : Nat)
    (hj : j < mr.length) (hj2 : j < orow.length) :
    (List.zipWith (fun m b => if m = 1 ∧ b = 0 then (255 : Nat) else 0) mr
        (List.zipWith (fun m o => if m = 1 then o else (0 : Nat)) mr orow)).getD j 0 =
      if mr.getD j 0 = 1 ∧ orow.getD j 0 = 0 then 255 else 0 := by
  induction mr generalizing orow j with
  | nil => simp at hj
  | cons m mr ih =>
    cases orow with
    | nil => simp at hj2
    | cons o orow =>
      cases j with
      | zero =>
        simp only [List.zipWith_cons_cons, List.getD_cons_zero]
        by_cases hm : m = 1 <;> by_cases ho : o = 0 <;> simp [hm, ho]
      | succ j =>
        simp only [List.zipWith_cons_cons, List.getD_cons_succ]
        exact ih orow j (by simpa using hj) (by simpa using hj2)

lemma px_mask_trees (mask otsu : Grid) (i j : Nat)
    (hi : i < mask.length) (hi2 : i < otsu.length)
    (hj : j < (mask.getD i []).length) (hj2 : j < (otsu.getD i []).length) :
    px (mask_trees mask otsu) i j =
      if px mask i j = 1 ∧ px otsu i j = 0 then 255 else 0 := by
  induction mask generalizing otsu i with
  | nil => simp at hi
  | cons mr mrest ih =>
    cases otsu with
    | nil => simp at hi2
    | cons orow orest =>
      cases i with
      | zero =>
        simp only [mask_trees, bin_img, px, List.zipWith_cons_cons,
          List.getD_cons_zero] at *
        exact zip_row_px mr orow j hj hj2
      | succ i =>
        simp only [mask_trees, bin_img, px, List.zipWith_cons_cons,
          List.getD_cons_succ] at *
        exact ih orest i (by simpa using hi) (by simpa using hi2) hj hj2

/-- C1: for every in-bounds pixel `(i, j)` of the aligned AOI mask and
thresholded image, `mask_trees` marks the pixel as foreground (value
255) iff the mask is 1 and the thresholded value is 0 there; every
other pixel is 0. -/
theorem masked_compositor_spec (mask otsu : Grid) (i j : Nat)
    (hi : i < mask.length) (hi2 : i < otsu.length)
    (hj : j < (mask.getD i []).length) (hj2 : j < (otsu.getD i []).length) :
    (px (mask_trees mask otsu) i j = 255 ↔
      px mask i j = 1 ∧ px otsu i j = 0) ∧
    (¬(px mask i j = 1 ∧ px otsu i j = 0) →
      px (mask_trees mask otsu) i j = 0) := by
  have h := px_mask_trees mask otsu i j hi hi2 hj hj2
  constructor
  · constructor
    · intro h255
      by_contra hc
      rw [if_neg hc] at h
      omega
    · intro hc
      rwa [if_pos hc] at h
  · intro hc
    rwa [if_neg hc] at h

theorem masked_compositor_spec_witness :
    0 < ([[1, 0]] : Grid).length ∧
    ((px (mask_trees [[1, 0]] [[0, 255]]) 0 0 = 255 ↔
        px [[1, 0]] 0 0 = 1 ∧ px [[0, 255]] 0 0 = 0) ∧
     (¬(px [[1, 0]] 0 0 = 1 ∧ px [[0, 255]] 0 0 = 0) →
        px (mask_trees [[1, 0]] [[0, 255]]) 0 0 = 0)) :=
  ⟨by decide,
   masked_compositor_spec [[1, 0]] [[0, 255]] 0 0 (by decide) (by decide)
     (by decide) (by decide)⟩

/-- C5: the polygon-building loop maps a contour vertex `(col, row)` to
`(x_min + (col + 0.5) * px_x, y_max - (row + 0.5) * px_y)` with
`px_x = (x_max - x_min)/W` and `px_y = (y_max - y_min)/H` as derived in
`_rasterize_aoi` (for a well-formed raster: `H > 0` and
`y_min ≤ y_max`, so that `abs(gt[5])` is exactly `(y_max - y_min)/H`). -/
theorem polygon_builder_forward (e : Extent) (w h : ℤ) (col row : Nat)
    (hh : 0 < h) (hy : e.ymin ≤ e.ymax) :
    forward e (px_x e w) (px_y e h) (col, row) =
      (e.xmin + ((col : ℚ) + 1 / 2) * ((e.xmax - e.xmin) / (w : ℚ)),
       e.ymax - ((row : ℚ) + 1 / 2) * ((e.ymax - e.ymin) / (h : ℚ))) := by
  have hpy : px_y e h = (e.ymax - e.ymin) / (h : ℚ) := by
    have hq : (0 : ℚ) < (h : ℚ) := by exact_mod_cast hh
    have hd : (0 : ℚ) ≤ (e.ymax - e.ymin) / (h : ℚ) :=
      div_nonneg (by linarith) (le_of_lt hq)
    simp only [px_y, abs_neg]
    exact abs_of_nonneg hd
  simp only [forward, px_x, hpy]

theorem polygon_builder_forward_witness :
    (0 : ℤ) < 3 ∧ (Extent.mk 0 2 0 3).ymin ≤ (Extent.mk 0 2 0 3).ymax ∧
    forward (Extent.mk 0 2 0 3) (px_x (Extent.mk 0 2 0 3) 2)
        (px_y (Extent.mk 0 2 0 3) 3) (0, 0) =
      (0 + ((0 : ℚ) + 1 / 2) * ((2 - 0) / (2 : ℚ)),
       3 - ((0 : ℚ) + 1 / 2) * ((3 - 0) / (3 : ℚ))) :=
  ⟨by decide, by norm_num,
   polygon_builder_forward (Extent.mk 0 2 0 3) 2 3 0 0 (by decide) (by norm_num)⟩

/-- C3 counterexample: on the degenerate grid `x_max = x_min` (with
`W = H = 1`) the grid computation of `_rasterize_aoi` succeeds instead
of failing with `InvalidGridError`: no such validation exists in the
code. -/
theorem grid_georeferencer_cex :
    computeGt (Extent.mk 0 0 0 1) 1 1 = .ok (0, 0, 0, 1, 0, -1) := by
  simp only [computeGt]
  norm_num

/-- C3 amended: the code performs no grid validation and defines no
`InvalidGridError`.  The geotransform computation fails only through
Python's `ZeroDivisionError`, exactly when `W = 0` or `H = 0`; every
other grid — including `W < 0`, `H < 0`, `x_max ≤ x_min` and
`y_max ≤ y_min` — is accepted and the geotransform tuple is returned. -/
theorem grid_georeferencer_no_validation (e : Extent) (w h : ℤ) :
    ((w = 0 ∨ h = 0) → computeGt e w h = .error "ZeroDivisionError") ∧
    (w ≠ 0 → h ≠ 0 → computeGt e w h =
      .ok (e.xmin, (e.xmax - e.xmin) / (w : ℚ), 0, e.ymax, 0,
           -((e.ymax - e.ymin) / (h : ℚ)))) := by
  constructor
  · intro hz
    simp [computeGt, hz]
  · intro hw hh
    simp [computeGt, hw, hh]

theorem grid_georeferencer_no_validation_witness :
    ((0 : ℤ) = 0 ∨ (1 : ℤ) = 0) ∧
    computeGt (Extent.mk 0 1 0 1) 0 1 = .error "ZeroDivisionError" :=
  ⟨Or.inl rfl,
   (grid_georeferencer_no_validation (Extent.mk 0 1 0 1) 0 1).1 (Or.inl rfl)⟩

/-- C4 counterexample: for an AOI with zero rings, OGR opens the empty
layer and `gdal.RasterizeLayer` succeeds burning nothing (return code
0, band left all-zero); `_rasterize_aoi` then silently returns the
all-zero mask instead of failing with `AoiEmptyError` — no such check
exists in the code. -/
theorem aoi_rasterizer_cex :
    rasterize_aoi true 0 [[0, 0], [0, 0]] = .ok [[0, 0], [0, 0]] := by
  rfl

/-- C4 amended: `_rasterize_aoi` raises `RuntimeError("Failed to open
AOI layer with OGR")` when the OGR open fails and
`RuntimeError("GDAL RasterizeLayer error")` when the burn reports a
nonzero code; it has no empty-AOI check, so when the burn succeeds the
(possibly all-zero) band is binarized and returned as the mask. -/
theorem aoi_rasterizer_errors (srcOpenOk : Bool) (burnErr : ℤ) (band : Grid) :
    (srcOpenOk = false →
      rasterize_aoi srcOpenOk burnErr band =
        .error "Failed to open AOI layer with OGR") ∧
    (srcOpenOk = true → burnErr ≠ 0 →
      rasterize_aoi srcOpenOk burnErr band =
        .error "GDAL RasterizeLayer error") ∧
    (srcOpenOk = true → burnErr = 0 →
      rasterize_aoi srcOpenOk burnErr band =
        .ok (band.map (fun row => row.map (fun v => if 0 < v then 1 else 0)))) := by
  refine ⟨?_, ?_, ?_⟩
  · intro hs
    simp [rasterize_aoi, hs]
  · intro hs hb
    simp [rasterize_aoi, hs, hb]
  · intro hs hb
    simp [rasterize_aoi, hs, hb]

theorem aoi_rasterizer_errors_witness :
    (true = true) ∧ ((1 : ℤ) ≠ 0) ∧
    rasterize_aoi true 1 [[0]] = .error "GDAL RasterizeLayer error" :=
  ⟨rfl, by decide, (aoi_rasterizer_errors true 1 [[0]]).2.1 rfl (by decide)⟩

/-- C10: whenever `_rasterize_aoi` succeeds, the returned mask is the
binarized band: every element is 0 or 1, and the array keeps the
burned band's `H` rows of `W` columns (the band has those dimensions by
GDAL's contract, since the MEM dataset is created with `Create("", w,
h, 1)` and read back whole). -/
theorem rasterize_mask_binary (srcOpenOk : Bool) (burnErr : ℤ)
    (band m : Grid) (w h : Nat)
    (hok : rasterize_aoi srcOpenOk burnErr band = .ok m)
    (hh : band.length = h) (hw : ∀ r ∈ band, r.length = w) :
    m.length = h ∧ (∀ r ∈ m, r.length = w) ∧
    (∀ r ∈ m, ∀ v ∈ r, v = 0 ∨ v = 1) := by
  cases srcOpenOk with
  | false => simp [rasterize_aoi] at hok
  | true =>
    by_cases hb : burnErr ≠ 0
    · simp [rasterize_aoi, hb] at hok
    · simp [rasterize_aoi, hb] at hok
      subst hok
      refine ⟨by simpa using hh, ?_, ?_⟩
      · intro r hr
        rcases List.mem_map.mp hr with ⟨row, hrow, rfl⟩
        simpa using hw row hrow
      · intro r hr v hv
        rcases List.mem_map.mp hr with ⟨row, hrow, rfl⟩
        rcases List.mem_map.mp hv with ⟨x, hx, rfl⟩
        by_cases h0 : 0 < x <;> simp [h0]

theorem rasterize_mask_binary_witness :
    rasterize_aoi true 0 [[0, 7], [3, 0]] = .ok [[0, 1], [1, 0]] ∧
    ([[0, 7], [3, 0]] : Grid).length = 2 ∧
    (∀ r ∈ ([[0, 7], [3, 0]] : Grid), r.length = 2) ∧
    (([[0, 1], [1, 0]] : Grid).length = 2 ∧
     (∀ r ∈ ([[0, 1], [1, 0]] : Grid), r.length = 2) ∧
     (∀ r ∈ ([[0, 1], [1, 0]] : Grid), ∀ v ∈ r, v = 0 ∨ v = 1)) :=
  ⟨rfl, rfl, by decide,
   rasterize_mask_binary true 0 [[0, 7], [3, 0]] [[0, 1], [1, 0]] 2 2 rfl rfl
     (by decide)⟩

lemma buildFeatures_ids (e : Extent) (pxx pxy : ℚ) :
    ∀ (i : Nat) (cnts : List Contour),
      (buildFeatures e pxx pxy i cnts).map Feature.id =
        ((List.enumFrom i cnts).filter
          (fun p => decide (3 ≤ p.2.length))).map Prod.fst := by
  intro i cnts
  induction cnts generalizing i with
  | nil => rfl
  | cons c rest ih =>
    by_cases hc : c.length < 3
    · have h3 : ¬ 3 ≤ c.length := by omega
      simp [buildFeatures, List.enumFrom, hc, h3, ih]
    · have h3 : 3 ≤ c.length := by omega
      simp [buildFeatures, List.enumFrom, hc, h3, ih]

/-- C2 counterexample: with a degenerate 2-vertex contour traced before
a valid 3-vertex one, the single emitted polygon carries ID 2, not
ID 1 — the IDs are not dense over valid contours. -/
theorem polygon_ids_cex :
    ((buildFeatures (Extent.mk 0 1 0 1) 1 1 1
        [[(0, 0), (1, 0)], [(0, 0), (1, 0), (0, 1)]]).map Feature.id) = [2] ∧
    ([2] : List Nat) ≠ [1] := by
  exact ⟨by decide, by decide⟩

/-- C2 amended: each emitted polygon's ID is the 1-based position of its
contour among ALL traced contours (valid and degenerate alike): the
loop `enumerate(contornos, start=1)` advances the counter on discarded
degenerate contours too, so IDs start at 1 and increase strictly but
may have gaps where degenerate contours were discarded. -/
theorem polygon_ids_positional (e : Extent) (pxx pxy : ℚ) (cnts : List Contour) :
    (buildFeatures e pxx pxy 1 cnts).map Feature.id =
      ((List.enumFrom 1 cnts).filter
        (fun p => decide (3 ≤ p.2.length))).map Prod.fst :=
  buildFeatures_ids e pxx pxy 1 cnts

lemma buildFeatures_pts (e : Extent) (pxx pxy : ℚ) :
    ∀ (i : Nat) (cnts : List Contour),
      (buildFeatures e pxx pxy i cnts).map Feature.pts =
        (cnts.filter (fun c => decide (3 ≤ c.length))).map
          (fun c => c.map (forward e pxx pxy)) := by
  intro i cnts
  induction cnts generalizing i with
  | nil => rfl
  | cons c rest ih =>
    by_cases hc : c.length < 3
    · have h3 : ¬ 3 ≤ c.length := by omega
      simp [buildFeatures, hc, h3, ih]
    · have h3 : 3 ≤ c.length := by omega
      simp [buildFeatures, hc, h3, ih]

/-- C7: the polygon-building loop emits exactly one polygon (the
forward-transformed ring) per contour with at least 3 vertices, in
order, and emits nothing for any contour with fewer than 3 vertices
(including 2-vertex ones); the loop is total, so discarding never
fails the pipeline. -/
theorem degenerate_contours_filtered (e : Extent) (pxx pxy : ℚ)
    (cnts : List Contour) :
    (buildFeatures e pxx pxy 1 cnts).map Feature.pts =
      (cnts.filter (fun c => decide (3 ≤ c.length))).map
        (fun c => c.map (forward e pxx pxy)) ∧
    (buildFeatures e pxx pxy 1 cnts).length =
      (cnts.filter (fun c => decide (3 ≤ c.length))).length := by
  refine ⟨buildFeatures_pts e pxx pxy 1 cnts, ?_⟩
  have h := congrArg List.length (buildFeatures_pts e pxx pxy 1 cnts)
  simpa using h

/-- C9: the embedded pipeline is a pure function of its inputs — the
code draws no randomness and every stage is a deterministic
transformation — so two runs on identical raster (extent, sizes,
thresholded image) and identical AOI mask agree bit for bit on IDs,
pixel areas and vertex sequences. -/
theorem pipeline_deterministic (e : Extent) (w h : ℤ) (mask otsu : Grid) :
    segment_olivos e w h mask otsu = segment_olivos e w h mask otsu ∧
    (segment_olivos e w h mask otsu).map Feature.id =
      (segment_olivos e w h mask otsu).map Feature.id ∧
    (segment_olivos e w h mask otsu).map Feature.area_px =
      (segment_olivos e w h mask otsu).map Feature.area_px ∧
    (segment_olivos e w h mask otsu).map Feature.pts =
      (segment_olivos e w h mask otsu).map Feature.pts :=
  ⟨rfl, rfl, rfl, rfl⟩

lemma rowFgAux_all_zero :
    ∀ (row : List Nat) (i j : Nat), (∀ v ∈ row, v = 0) →
      rowFgAux i j row = [] := by
  intro row
  induction row with
  | nil => intro i j _; rfl
  | cons v r ih =>
    intro i j hz
    have hv : v = 0 := hz v (List.mem_cons_self v r)
    have hr : rowFgAux i (j + 1) r = [] :=
      ih i (j + 1) (fun x hx => hz x (List.mem_cons_of_mem v hx))
    simp [rowFgAux, hv, hr]

lemma gridFgAux_all_zero :
    ∀ (g : Grid) (i : Nat), (∀ r ∈ g, ∀ v ∈ r, v = 0) →
      gridFgAux i g = [] := by
  intro g
  induction g with
  | nil => intro i _; rfl
  | cons row rest ih =>
    intro i hz
    have h1 : rowFgAux i 0 row = [] :=
      rowFgAux_all_zero row i 0 (hz row (List.mem_cons_self row rest))
    have h2 : gridFgAux (i + 1) rest = [] :=
      ih (i + 1) (fun r hr => hz r (List.mem_cons_of_mem row hr))
    simp [gridFgAux, h1, h2]

lemma zip_row_all_zero :
    ∀ (mr orow : List Nat), (∀ v ∈ mr, v = 0) →
      ∀ x ∈ List.zipWith (fun m b => if m = 1 ∧ b = 0 then (255 : Nat) else 0) mr
        (List.zipWith (fun m o => if m = 1 then o else (0 : Nat)) mr orow),
        x = 0 := by
  intro mr
  induction mr with
  | nil => intro orow _ x hx; simp at hx
  | cons m mr ih =>
    intro orow hz x hx
    cases orow with
    | nil => simp at hx
    | cons o orow =>
      simp only [List.zipWith_cons_cons, List.mem_cons] at hx
      rcases hx with hx | hx
      · have hm : m = 0 := hz m (by simp)
        subst hx
        simp [hm]
      · exact ih orow (fun v hv => hz v (by simp [hv])) x hx

lemma mask_trees_all_zero :
    ∀ (mask otsu : Grid), (∀ r ∈ mask, ∀ v ∈ r, v = 0) →
      ∀ r ∈ mask_trees mask otsu, ∀ v ∈ r, v = 0 := by
  intro mask
  induction mask with
  | nil => intro otsu _ r hr; simp [mask_trees, bin_img] at hr
  | cons mr mrest ih =>
    intro otsu hz r hr
    cases otsu with
    | nil => simp [mask_trees, bin_img] at hr
    | cons orow orest =>
      simp only [mask_trees, bin_img, List.zipWith_cons_cons, List.mem_cons] at hr
      rcases hr with hr | hr
      · subst hr
        exact zip_row_all_zero mr orow (hz mr (by simp))
      · refine ih orest (fun rr hrr v hv => hz rr (by simp [hrr]) v hv) r ?_
        simp only [mask_trees, bin_img]
        exact hr

/-- C8: when the AOI mask is all-zero (zero overlap with the raster),
the Masked Compositor's output `mask_trees` is the all-zero image, the
Contour Tracer finds zero contours, and `segment_olivos` emits zero
polygons. -/
theorem empty_overlap_empty_result (e : Extent) (w h : ℤ) (mask otsu : Grid)
    (hz : ∀ r ∈ mask, ∀ v ∈ r, v = 0) :
    (∀ r ∈ mask_trees mask otsu, ∀ v ∈ r, v = 0) ∧
    findContoursModel (mask_trees mask otsu) = [] ∧
    segment_olivos e w h mask otsu = [] := by
  have h1 := mask_trees_all_zero mask otsu hz
  have hfg : gridFg (mask_trees mask otsu) = [] :=
    gridFgAux_all_zero _ 0 h1
  have hc : findContoursModel (mask_trees mask otsu) = [] := by
    simp [findContoursModel, components, gridFg] at *
    simp [hfg]
  exact ⟨h1, hc, by simp [segment_olivos, hc, buildFeatures]⟩

theorem empty_overlap_empty_result_witness :
    (∀ r ∈ ([[0, 0], [0, 0]] : Grid), ∀ v ∈ r, v = 0) ∧
    ((∀ r ∈ mask_trees [[0, 0], [0, 0]] [[0, 255], [255, 0]], ∀ v ∈ r, v = 0) ∧
     findContoursModel (mask_trees [[0, 0], [0, 0]] [[0, 255], [255, 0]]) = [] ∧
     segment_olivos (Extent.mk 0 2 0 2) 2 2 [[0, 0], [0, 0]] [[0, 255], [255, 0]] = []) :=
  ⟨by decide,
   empty_overlap_empty_result (Extent.mk 0 2 0 2) 2 2 [[0, 0], [0, 0]]
     [[0, 255], [255, 0]] (by decide)⟩

lemma scan_argmax (f : Nat → ℚ) :
    ∀ (n s a : Nat), a ≤ s →
      (((List.range' s n).foldl (scanStep f) a) = a ∨
        (s ≤ (List.range' s n).foldl (scanStep f) a ∧
         (List.range' s n).foldl (scanStep f) a < s + n)) ∧
      f a ≤ f ((List.range' s n).foldl (scanStep f) a) ∧
      (∀ t, s ≤ t → t < s + n →
        f t ≤ f ((List.range' s n).foldl (scanStep f) a)) ∧
      (∀ t, (t = a ∨ (s ≤ t ∧ t < s + n)) →
        f t = f ((List.range' s n).foldl (scanStep f) a) →
        (List.range' s n).foldl (scanStep f) a ≤ t) := by
  intro n
  induction n with
  | zero =>
    intro s a ha
    refine ⟨Or.inl rfl, le_refl _, ?_, ?_⟩
    · intro t hst hts
      omega
    · intro t ht _
      rcases ht with rfl | ⟨h1, h2⟩
      · exact le_refl _
      · omega
  | succ n ih =>
    intro s a ha
    rw [List.range'_succ]
    simp only [List.foldl_cons]
    by_cases hfs : f a < f s
    · simp only [scanStep, if_pos hfs]
      obtain ⟨ih1, ih2, ih3, ih4⟩ := ih (s + 1) s (Nat.le_succ s)
      refine ⟨?_, le_trans (le_of_lt hfs) ih2, ?_, ?_⟩
      · rcases ih1 with h | ⟨hl, hr⟩
        · exact Or.inr ⟨by omega, by omega⟩
        · exact Or.inr ⟨by omega, by omega⟩
      · intro t hst hts
        rcases Nat.eq_or_lt_of_le hst with rfl | hlt
        · exact ih2
        · exact ih3 t (by omega) (by omega)
      · intro t ht heq
        rcases ht with hta | ⟨h1, h2⟩
        · have hlt : f t < f ((List.range' (s + 1) n).foldl (scanStep f) s) := by
            rw [hta]
            exact lt_of_lt_of_le hfs ih2
          exact absurd heq (ne_of_lt hlt)
        · rcases Nat.eq_or_lt_of_le h1 with hst | hlt
          · exact ih4 t (Or.inl hst.symm) heq
          · exact ih4 t (Or.inr ⟨by omega, by omega⟩) heq
    · simp only [scanStep, if_neg hfs]
      have hsa : f s ≤ f a := le_of_not_lt hfs
      obtain ⟨ih1, ih2, ih3, ih4⟩ := ih (s + 1) a (by omega)
      refine ⟨?_, ih2, ?_, ?_⟩
      · rcases ih1 with h | ⟨hl, hr⟩
        · exact Or.inl h
        · exact Or.inr ⟨by omega, by omega⟩
      · intro t hst hts
        rcases Nat.eq_or_lt_of_le hst with rfl | hlt
        · exact le_trans hsa ih2
        · exact ih3 t (by omega) (by omega)
      · intro t ht heq
        rcases ht with rfl | ⟨h1, h2⟩
        · exact ih4 t (Or.inl rfl) heq
        · rcases Nat.eq_or_lt_of_le h1 with rfl | hlt
          · have hfa : f a = f ((List.range' (s + 1) n).foldl (scanStep f) a) := by
              have hra : f ((List.range' (s + 1) n).foldl (scanStep f) a) ≤ f a := by
                rw [← heq]
                exact hsa
              exact le_antisymm ih2 hra
            have hr := ih4 a (Or.inl rfl) hfa
            omega
          · exact ih4 t (Or.inr ⟨by omega, by omega⟩) heq

/-- C6: for a non-empty intensity image, the modelled Threshold Engine
selects `t*` in `[1, 254]` maximizing the between-class variance,
taking the smallest maximizer on ties (first maximum in the ascending
scan), and outputs 255 exactly where the intensity is strictly above
`t*` and 0 elsewhere. -/
theorem otsu_threshold_spec (img : List Nat) (_hne : img ≠ []) :
    (1 ≤ otsuThreshold img ∧ otsuThreshold img ≤ 254) ∧
    (∀ u, 1 ≤ u → u ≤ 254 →
      betweenVar img u ≤ betweenVar img (otsuThreshold img)) ∧
    (∀ u, 1 ≤ u → u ≤ 254 →
      betweenVar img u = betweenVar img (otsuThreshold img) →
      otsuThreshold img ≤ u) ∧
    applyOtsu img = img.map (fun v => if otsuThreshold img < v then 255 else 0) := by
  obtain ⟨h1, h2, h3, h4⟩ := scan_argmax (betweenVar img) 253 2 1 (by omega)
  have hdef : otsuThreshold img =
      (List.range' 2 253).foldl (scanStep (betweenVar img)) 1 := rfl
  refine ⟨?_, ?_, ?_, rfl⟩
  · rw [hdef]
    rcases h1 with h | ⟨hl, hr⟩ <;> omega
  · intro u h1u h254
    rw [hdef]
    rcases Nat.eq_or_lt_of_le h1u with rfl | hlt
    · exact h2
    · exact h3 u (by omega) (by omega)
  · intro u h1u h254 heq
    rw [hdef]
    rw [hdef] at heq
    rcases Nat.eq_or_lt_of_le h1u with rfl | hlt
    · exact h4 1 (Or.inl rfl) heq
    · exact h4 u (Or.inr ⟨by omega, by omega⟩) heq

theorem otsu_threshold_spec_witness :
    ([10, 200] : List Nat) ≠ [] ∧
    ((1 ≤ otsuThreshold [10, 200] ∧ otsuThreshold [10, 200] ≤ 254) ∧
     (∀ u, 1 ≤ u → u ≤ 254 →
       betweenVar [10, 200] u ≤ betweenVar [10, 200] (otsuThreshold [10, 200])) ∧
     (∀ u, 1 ≤ u → u ≤ 254 →
       betweenVar [10, 200] u = betweenVar [10, 200] (otsuThreshold [10, 200]) →
       otsuThreshold [10, 200] ≤ u) ∧
     applyOtsu [10, 200] =
       ([10, 200] : List Nat).map
         (fun v => if otsuThreshold [10, 200] < v then 255 else 0)) :=
  ⟨by decide, otsu_threshold_spec [10, 200] (by decide)⟩

